import Mathlib

/-!
Shallow embedding of the `coloring` Rust crate (src/lib.rs): a terminal
text formatter that wraps text in ANSI SGR escape sequences.

Rust `u8` values are modelled as `Nat` (only their decimal rendering
matters to the formatter, and every theorem below holds for all `Nat`,
in particular for all 8-bit values). Rust `format!("{}", n)` (decimal
rendering of an unsigned integer) is modelled by `natRepr` below, and
`Vec<String>::join(";")` by `joinSep ";"`.
-/

/-- Decimal digits of `n`, most significant first, computed with explicit
fuel so that the definition reduces by `rfl`/`decide`. `fuel = n + 1` is
always enough since `n` has at most `n + 1` decimal digits. -/
def natToDigitsAux : Nat → Nat → List Char
  | 0, _ => []
  | fuel + 1, n =>
    if n < 10 then [Nat.digitChar n]
    else natToDigitsAux fuel (n / 10) ++ [Nat.digitChar (n % 10)]

/-- Decimal string of `n`: the model of Rust's `format!("{}", n)` for an
unsigned integer `n`. -/
def natRepr (n : Nat) : String :=
  ⟨natToDigitsAux (n + 1) n⟩

/-- Model of Rust's `Vec<String>::join(sep)`: the elements in order with a
single `sep` between adjacent elements. -/
def joinSep (sep : String) : List String → String
  | [] => ""
  | [a] => a
  | a :: b :: rest => a ++ sep ++ joinSep sep (b :: rest)

/-- `enum Color` from src/lib.rs: the `u8` payloads of `Colors256` and
`RGB` are modelled as `Nat`. -/
inductive Color where
  | Default
  | Black
  | Red
  | Green
  | Yellow
  | Blue
  | Magenta
  | Cyan
  | White
  | BrightBlack
  | BrightRed
  | BrightGreen
  | BrightYellow
  | BrightBlue
  | BrightMagenta
  | BrightCyan
  | BrightWhite
  | Colors256 (val : Nat)
  | RGB (r : Nat) (g : Nat) (b : Nat)
deriving DecidableEq, Repr

/-- `enum Styles` from src/lib.rs (discriminants carried by `Styles.code`). -/
inductive Styles where
  | Reset
  | Bold
  | Faint
  | Italic
  | Underline
  | Blink
  | Invert
  | Invisible
  | Strikethrough
deriving DecidableEq, Repr

/-- The Rust discriminant of each `Styles` variant
(`Reset = 0, ..., Strikethrough = 9`, with `6` skipped). -/
def Styles.code : Styles → Nat
  | .Reset => 0
  | .Bold => 1
  | .Faint => 2
  | .Italic => 3
  | .Underline => 4
  | .Blink => 5
  | .Invert => 7
  | .Invisible => 8
  | .Strikethrough => 9

/-- `enum TensDigit` from src/lib.rs (`FG = 3`, `BG = 4`). -/
inductive TensDigit where
  | FG
  | BG
deriving DecidableEq

/-- The Rust discriminant of each `TensDigit` variant (`tens_digit as u8`). -/
def TensDigit.toNat : TensDigit → Nat
  | .FG => 3
  | .BG => 4

/-- `struct Formatting` from src/lib.rs. `Default` derives to
`fg = Color::Default`, `bg = Color::Default`, `styles = None`. -/
structure Formatting where
  fg : Color := .Default
  bg : Color := .Default
  styles : Option (List Styles) := none
deriving DecidableEq, Repr

/-- `Formatting::new()`: a default `Formatting` object. -/
def Formatting.new : Formatting := {}

/-- `Formatting::foreground`: sets the `fg` field and returns the
(updated) instance. The Rust method mutates `self` in place and returns
`&mut self`; the functional model returns the updated record. -/
def Formatting.foreground (f : Formatting) (fg : Color) : Formatting :=
  { f with fg := fg }

/-- `Formatting::background`: sets the `bg` field and returns the
(updated) instance. -/
def Formatting.background (f : Formatting) (bg : Color) : Formatting :=
  { f with bg := bg }

/-- `Formatting::styles` (named `setStyles` here because the field
projection already uses the name `styles`): sets the `styles` field to
`Some styles` and returns the (updated) instance. -/
def Formatting.setStyles (f : Formatting) (styles : List Styles) : Formatting :=
  { f with styles := some styles }

/-- `Formatting::translate_colors`: the optional ANSI code segment for one
color, with tens digit 3 (foreground) or 4 (background). -/
def Formatting.translate_colors (color : Color) (tens_digit : TensDigit) : Option String :=
  let td := tens_digit.toNat
  match color with
  | .Default => none
  | .Colors256 val => some (natRepr td ++ "8;5;" ++ natRepr val)
  | .RGB r g b =>
      some (natRepr td ++ "8;2;" ++ natRepr r ++ ";" ++ natRepr g ++ ";" ++ natRepr b)
  | .Black => some (natRepr (10 * td + 0))
  | .Red => some (natRepr (10 * td + 1))
  | .Green => some (natRepr (10 * td + 2))
  | .Yellow => some (natRepr (10 * td + 3))
  | .Blue => some (natRepr (10 * td + 4))
  | .Magenta => some (natRepr (10 * td + 5))
  | .Cyan => some (natRepr (10 * td + 6))
  | .White => some (natRepr (10 * td + 7))
  | .BrightBlack => some (natRepr (10 * td + 60))
  | .BrightRed => some (natRepr (10 * td + 61))
  | .BrightGreen => some (natRepr (10 * td + 62))
  | .BrightYellow => some (natRepr (10 * td + 63))
  | .BrightBlue => some (natRepr (10 * td + 64))
  | .BrightMagenta => some (natRepr (10 * td + 65))
  | .BrightCyan => some (natRepr (10 * td + 66))
  | .BrightWhite => some (natRepr (10 * td + 67))

/-- `Formatting::translate_foreground`. -/
def Formatting.translate_foreground (f : Formatting) : Option String :=
  Formatting.translate_colors f.fg .FG

/-- `Formatting::translate_background`. -/
def Formatting.translate_background (f : Formatting) : Option String :=
  Formatting.translate_colors f.bg .BG

/-- `Formatting::translate_styles`: `None` if no style list was set,
otherwise the decimal codes of the styles in order, joined by `;`. -/
def Formatting.translate_styles (f : Formatting) : Option String :=
  match f.styles with
  | none => none
  | some styles => some (joinSep ";" (styles.map fun x => natRepr x.code))

/-- `Formatting::translate`: concatenates the foreground, background and
styles segments in that order, following the source's push sequence: a `;`
is pushed after the foreground segment when a background or styles segment
follows, and after the background segment when a styles segment follows. -/
def Formatting.translate (f : Formatting) : String :=
  let fg := f.translate_foreground
  let bg := f.translate_background
  let styles := f.translate_styles
  (match fg with
   | some s => s ++ (if bg.isSome || styles.isSome then ";" else "")
   | none => "") ++
  (match bg with
   | some s => s ++ (if styles.isSome then ";" else "")
   | none => "") ++
  styles.getD ""

/-- `Formatting::apply_to`: wraps `text` in the SGR sequence: the starting
delimiter `ESC [`, the translated parameters, `m`, the text, and the
resetting delimiter `ESC [ 0 m`. -/
def Formatting.apply_to (f : Formatting) (text : String) : String :=
  "\x1B[" ++ f.translate ++ "m" ++ text ++ "\x1B[0m"

/-! ### Helper lemmas -/

theorem isDigit_digitChar : ∀ d : Nat, d < 10 → (Nat.digitChar d).isDigit = true := by
  decide

/-- Every character of a string built by `natToDigitsAux` is a decimal digit. -/
theorem isDigit_of_mem_natToDigitsAux (fuel : Nat) :
    ∀ (n : Nat) (c : Char), c ∈ natToDigitsAux fuel n → c.isDigit = true := by
  induction fuel with
  | zero => intro n c h; simp [natToDigitsAux] at h
  | succ fuel ih =>
    intro n c h
    unfold natToDigitsAux at h
    by_cases hn : n < 10
    · simp [hn] at h
      subst h
      exact isDigit_digitChar n hn
    · simp [hn] at h
      rcases h with h | h
      · exact ih _ _ h
      · subst h
        exact isDigit_digitChar _ (Nat.mod_lt _ (by norm_num))

/-- Every character of `natRepr n` is a decimal digit. -/
theorem isDigit_of_mem_natRepr (n : Nat) (c : Char) (h : c ∈ (natRepr n).data) :
    c.isDigit = true :=
  isDigit_of_mem_natToDigitsAux _ _ _ h

/-- A string all of whose characters are decimal digits or `;`. -/
def goodStr (s : String) : Prop :=
  ∀ c ∈ s.data, c.isDigit = true ∨ c = ';'

theorem goodStr_append {a b : String} (ha : goodStr a) (hb : goodStr b) :
    goodStr (a ++ b) := by
  intro c hc
  rw [String.data_append] at hc
  rcases List.mem_append.mp hc with h | h
  · exact ha c h
  · exact hb c h

theorem goodStr_natRepr (n : Nat) : goodStr (natRepr n) :=
  fun c hc => Or.inl (isDigit_of_mem_natRepr n c hc)

theorem goodStr_empty : goodStr "" := by
  unfold goodStr; decide

theorem goodStr_semi : goodStr ";" := by
  unfold goodStr; decide

theorem goodStr_seg85 : goodStr "8;5;" := by
  unfold goodStr; decide

theorem goodStr_seg82 : goodStr "8;2;" := by
  unfold goodStr; decide

theorem goodStr_ifSemi (cond : Bool) : goodStr (if cond then ";" else "") := by
  cases cond
  · exact goodStr_empty
  · exact goodStr_semi

theorem goodStr_joinSep (l : List String) (hl : ∀ s ∈ l, goodStr s) :
    goodStr (joinSep ";" l) := by
  induction l with
  | nil => intro c hc; simp [joinSep] at hc
  | cons a rest ih =>
    cases rest with
    | nil => exact hl a (by simp)
    | cons b rest2 =>
      show goodStr (a ++ ";" ++ joinSep ";" (b :: rest2))
      exact goodStr_append (goodStr_append (hl a (by simp)) goodStr_semi)
        (ih fun s hs => hl s (by simp [hs]))

theorem goodStr_translate_colors (col : Color) (td : TensDigit) (s : String)
    (hs : Formatting.translate_colors col td = some s) : goodStr s := by
  cases col <;> simp [Formatting.translate_colors] at hs <;> rw [← hs] <;>
    first
    | exact goodStr_natRepr _
    | exact goodStr_append (goodStr_append (goodStr_natRepr _) goodStr_seg85)
        (goodStr_natRepr _)
    | exact goodStr_append (goodStr_append (goodStr_append (goodStr_append
        (goodStr_append (goodStr_append (goodStr_natRepr _) goodStr_seg82)
          (goodStr_natRepr _)) goodStr_semi) (goodStr_natRepr _)) goodStr_semi)
        (goodStr_natRepr _)

theorem goodStr_translate_styles (f : Formatting) (s : String)
    (hs : f.translate_styles = some s) : goodStr s := by
  unfold Formatting.translate_styles at hs
  cases hst : f.styles with
  | none => rw [hst] at hs; simp at hs
  | some l =>
    rw [hst] at hs
    simp at hs
    rw [← hs]
    refine goodStr_joinSep _ ?_
    intro x hx
    simp at hx
    obtain ⟨st, _, hx2⟩ := hx
    rw [← hx2]
    exact goodStr_natRepr _

theorem goodStr_translate (f : Formatting) : goodStr f.translate := by
  simp only [Formatting.translate]
  refine goodStr_append (goodStr_append ?_ ?_) ?_
  · cases hfg : f.translate_foreground with
    | none => exact goodStr_empty
    | some s =>
      exact goodStr_append (goodStr_translate_colors _ _ _ hfg) (goodStr_ifSemi _)
  · cases hbg : f.translate_background with
    | none => exact goodStr_empty
    | some s =>
      exact goodStr_append (goodStr_translate_colors _ _ _ hbg) (goodStr_ifSemi _)
  · cases hst : f.translate_styles with
    | none => exact goodStr_empty
    | some s => exact goodStr_translate_styles f s hst

/-- The 8 base palette colors in their fixed order. -/
def baseColors : List Color :=
  [.Black, .Red, .Green, .Yellow, .Blue, .Magenta, .Cyan, .White]

/-- The 8 bright palette colors, in the same color order. -/
def brightColors : List Color :=
  [.BrightBlack, .BrightRed, .BrightGreen, .BrightYellow, .BrightBlue,
   .BrightMagenta, .BrightCyan, .BrightWhite]


/-! ### Claim theorems -/

/-- C1: for every Formatter configuration and every input string, `apply_to`
returns exactly the concatenation of the two characters ESC `[`, the encoded
parameters, `m`, the text passed through character-for-character unmodified,
and ESC `[` `0` `m`; it is a total function, so it never fails. -/
theorem apply_to_shape (f : Formatting) (text : String) :
    (f.apply_to text).data =
      [Char.ofNat 27, '['] ++ f.translate.data ++ ['m'] ++ text.data
        ++ [Char.ofNat 27, '[', '0', 'm'] := by
  have h1 : ("\x1B[" : String).data = [Char.ofNat 27, '['] := by decide
  have h2 : ("m" : String).data = ['m'] := by decide
  have h3 : ("\x1B[0m" : String).data = [Char.ofNat 27, '[', '0', 'm'] := by decide
  simp [Formatting.apply_to, String.data_append, h1, h2, h3]

/-- C2: the encoded-parameters string is the concatenation of the present
segments in the fixed order foreground, background, styles, with a single `;`
between adjacent present segments; with no present segment it is empty, and an
unconfigured Formatter renders with an empty parameter list, the bracket not
omitted. -/
theorem translate_joins_segments :
    (∀ f : Formatting,
        f.translate =
          joinSep ";"
            (([f.translate_foreground, f.translate_background,
               f.translate_styles]).filterMap id)) ∧
    Formatting.new.translate = "" ∧
    (∀ text : String,
        Formatting.new.apply_to text = "\x1B[m" ++ text ++ "\x1B[0m") := by
  refine ⟨fun f => ?_, rfl, fun text => rfl⟩
  simp only [Formatting.translate]
  cases hfg : f.translate_foreground <;>
    cases hbg : f.translate_background <;>
      cases hst : f.translate_styles <;>
        simp [joinSep, String.append_assoc, String.append_empty]

/-- C3: each named palette color encodes as the decimal of 30 + offset for
foregrounds, with offset 0-7 for the base colors in the fixed order Black,
Red, Green, Yellow, Blue, Magenta, Cyan, White, and offset 60-67 for the
bright variants in the same order (90-97); backgrounds use 40 instead of 30
(40-47 and 100-107); the no-color variant gives an absent segment. -/
theorem translate_colors_named :
    (∀ i : Fin 8,
        Formatting.translate_colors (baseColors.getD i.val .Default) .FG =
          some (natRepr (30 + i.val))) ∧
    (∀ i : Fin 8,
        Formatting.translate_colors (brightColors.getD i.val .Default) .FG =
          some (natRepr (30 + (60 + i.val)))) ∧
    (∀ i : Fin 8,
        Formatting.translate_colors (baseColors.getD i.val .Default) .BG =
          some (natRepr (40 + i.val))) ∧
    (∀ i : Fin 8,
        Formatting.translate_colors (brightColors.getD i.val .Default) .BG =
          some (natRepr (40 + (60 + i.val)))) ∧
    (Formatting.translate_colors .Default .FG = none ∧
     Formatting.translate_colors .Default .BG = none) := by
  decide

/-- C4: an 8-bit palette value v encodes as `38;5;` followed by the decimal
of v for foregrounds and `48;5;` for backgrounds, and an RGB triple encodes
as `38;2;r;g;b` respectively `48;2;r;g;b` (the theorem holds for all natural
payloads, in particular all 8-bit values). -/
theorem translate_colors_extended (v r g b : Nat) :
    Formatting.translate_colors (.Colors256 v) .FG = some ("38;5;" ++ natRepr v) ∧
    Formatting.translate_colors (.RGB r g b) .FG =
      some ("38;2;" ++ natRepr r ++ ";" ++ natRepr g ++ ";" ++ natRepr b) ∧
    Formatting.translate_colors (.Colors256 v) .BG = some ("48;5;" ++ natRepr v) ∧
    Formatting.translate_colors (.RGB r g b) .BG =
      some ("48;2;" ++ natRepr r ++ ";" ++ natRepr g ++ ";" ++ natRepr b) :=
  ⟨rfl, rfl, rfl, rfl⟩

/-- C5: after setting any style list (the empty list included) the styles
segment is the decimal codes of the flags in the exact order given,
duplicates preserved, joined by `;`; the codes are Reset=0, Bold=1, Faint=2,
Italic=3, Underline=4, Blink=5, Invert=7, Invisible=8, Strikethrough=9, no
flag mapping to 6; when the styles field was never set the segment is
absent. -/
theorem translate_styles_spec :
    (∀ (f : Formatting) (l : List Styles),
        (f.setStyles l).translate_styles =
          some (joinSep ";" (l.map fun s => natRepr s.code))) ∧
    (Styles.code .Reset = 0 ∧ Styles.code .Bold = 1 ∧ Styles.code .Faint = 2 ∧
     Styles.code .Italic = 3 ∧ Styles.code .Underline = 4 ∧
     Styles.code .Blink = 5 ∧ Styles.code .Invert = 7 ∧
     Styles.code .Invisible = 8 ∧ Styles.code .Strikethrough = 9) ∧
    (∀ s : Styles, s.code ≠ 6) ∧
    (∀ cf cb : Color, Formatting.translate_styles ⟨cf, cb, none⟩ = none) := by
  refine ⟨fun f l => rfl, by decide, fun s => by cases s <;> decide, fun cf cb => rfl⟩

/-- C6: the literal scenarios: foreground Blue, background Blue, styles
Bold-Invert, the full foreground-background-styles chain, and the default
Formatter each render the exact documented escape strings around `text`. -/
theorem render_scenarios :
    (Formatting.new.foreground .Blue).apply_to "text" = "\x1B[34mtext\x1B[0m" ∧
    (Formatting.new.background .Blue).apply_to "text" = "\x1B[44mtext\x1B[0m" ∧
    (Formatting.new.setStyles [.Bold, .Invert]).apply_to "text" =
      "\x1B[1;7mtext\x1B[0m" ∧
    (((Formatting.new.foreground .Blue).background .Blue).setStyles
        [.Bold]).apply_to "text" = "\x1B[34;44;1mtext\x1B[0m" ∧
    Formatting.new.apply_to "text" = "\x1B[mtext\x1B[0m" :=
  ⟨rfl, rfl, rfl, rfl, rfl⟩

/-- C7: calling the same setter twice leaves the Formatter in the state the
second call alone produces, for each of the three setters: later calls
overwrite earlier ones of the same kind with no accumulation. -/
theorem setters_overwrite (f : Formatting) (a b : Color) (l1 l2 : List Styles) :
    (f.foreground a).foreground b = f.foreground b ∧
    (f.background a).background b = f.background b ∧
    (f.setStyles l1).setStyles l2 = f.setStyles l2 :=
  ⟨rfl, rfl, rfl⟩

/-- C8: rendering is deterministic and depends only on the three
configuration fields: two Formatters with identical foreground, background
and styles fields render any text identically (the embedding is a pure
function of the fields, so repeated calls with the same configuration agree
and no hidden state exists). -/
theorem apply_to_deterministic (f g : Formatting) (text : String)
    (hfg : f.fg = g.fg) (hbg : f.bg = g.bg) (hst : f.styles = g.styles) :
    f.apply_to text = g.apply_to text := by
  cases f; cases g
  cases hfg; cases hbg; cases hst
  rfl

/-- Witness for C8 at a concrete pair of equal-field Formatters. -/
theorem apply_to_deterministic_witness :
    (Formatting.new.foreground .Red).apply_to "hi" =
      (Formatting.mk .Red .Default none).apply_to "hi" :=
  apply_to_deterministic _ _ "hi" rfl rfl rfl

/-- C9: each setter touches only its own field: it stores its argument there
and leaves the two other fields exactly as they were. -/
theorem setters_frame (f : Formatting) (c : Color) (l : List Styles) :
    ((f.foreground c).fg = c ∧ (f.foreground c).bg = f.bg ∧
     (f.foreground c).styles = f.styles) ∧
    ((f.background c).bg = c ∧ (f.background c).fg = f.fg ∧
     (f.background c).styles = f.styles) ∧
    ((f.setStyles l).styles = some l ∧ (f.setStyles l).fg = f.fg ∧
     (f.setStyles l).bg = f.bg) :=
  ⟨⟨rfl, rfl, rfl⟩, ⟨rfl, rfl, rfl⟩, ⟨rfl, rfl, rfl⟩⟩

/-- C10: every character of the encoded-parameters string of any Formatter
is an ASCII decimal digit or `;`; in particular it is never the letter `m`
and never the ESC character, so the first `m` after the opening ESC `[`
terminates the SGR sequence. -/
theorem translate_chars (f : Formatting) (c : Char)
    (hc : c ∈ f.translate.data) :
    (c.isDigit = true ∨ c = ';') ∧ c ≠ 'm' ∧ c ≠ Char.ofNat 27 := by
  have h := goodStr_translate f c hc
  refine ⟨h, ?_, ?_⟩ <;> rintro rfl <;> exact absurd h (by decide)

/-- Witness for C10 on a concrete Formatter and character. -/
theorem translate_chars_witness :
    ('3' ∈ (Formatting.new.foreground .Black).translate.data) ∧
    (('3'.isDigit = true ∨ '3' = ';') ∧ '3' ≠ 'm' ∧ '3' ≠ Char.ofNat 27) :=
  ⟨by decide, translate_chars (Formatting.new.foreground .Black) '3' (by decide)⟩
